import Mathlib

/-!
Verification development for the uc3m-timetable crate.

The definitions below are a shallow embedding of the Rust sources:
strings become lists of characters, machine integers become Nat or Int
with explicit bounds, fallible code returns Option or Except, and code
that asserts (panics) is modelled with an Option layer where the none
case stands for the fatal stop.

Source files embedded here:
  src/ical/mod.rs        (Prop, Param, Component, escaping, folding, date format)
  src/ical/components.rs (Event, Recurrence, TimeUnit, Event to Component)
  src/util.rs            (Process iterator adapter)
  src/lib.rs             (TimetableId, url derivation and parsing)
  src/parse.rs           (Cell, parse_date, parse_session, push_sessions)
-/

/-! ## Decimal formatting and parsing

Models Rust integer Display (decimal digits, minus sign for negatives)
and FromStr for the unsigned and signed integer types (optional sign,
ascii digits, overflow rejected). -/

/-- Character for a single decimal digit value. -/
def digitChar (d : Nat) : Char := Char.ofNat (48 + d)

/-- Fuel-driven digit emitter; with fuel above n it prints n in decimal,
most significant digit first, and prints nothing for zero. -/
def natToCharsAux : Nat → Nat → List Char
  | 0, _ => []
  | fuel + 1, n => if n = 0 then [] else natToCharsAux fuel (n / 10) ++ [digitChar (n % 10)]

/-- Decimal rendering of a natural number, as Rust Display does. -/
def natToChars (n : Nat) : List Char :=
  if n = 0 then ['0'] else natToCharsAux (n + 1) n

/-- Decimal rendering of an integer, as Rust Display for i32 does. -/
def intToChars (y : Int) : List Char :=
  if y < 0 then '-' :: natToChars y.natAbs else natToChars y.toNat

/-- Accumulating decimal parser over ascii digits; any non-digit fails. -/
def parseDigitsAux (acc : Nat) : List Char → Option Nat
  | [] => some acc
  | c :: cs => if c.isDigit then parseDigitsAux (acc * 10 + (c.toNat - 48)) cs else none

/-- Decimal parser: nonempty all-digit strings only, value returned exactly. -/
def parseDigits (cs : List Char) : Option Nat :=
  if cs = [] then none else parseDigitsAux 0 cs

/-- Models FromStr for an unsigned Rust integer with the given bit width:
an optional leading plus sign, ascii digits, and overflow rejected. -/
def parseUInt (bits : Nat) (cs : List Char) : Option Nat :=
  let ds := match cs with
    | c :: rest => if c = '+' then rest else c :: rest
    | [] => []
  match parseDigits ds with
  | some v => if v < 2 ^ bits then some v else none
  | none => none

/-- Models FromStr for i32: optional sign, ascii digits, range checked. -/
def parseI32 (cs : List Char) : Option Int :=
  match cs with
  | [] => none
  | c :: rest =>
    if c = '-' then
      match parseDigits rest with
      | some v => if v ≤ 2 ^ 31 then some (-(v : Int)) else none
      | none => none
    else if c = '+' then
      match parseDigits rest with
      | some v => if v < 2 ^ 31 then some ((v : Int)) else none
      | none => none
    else
      match parseDigits cs with
      | some v => if v < 2 ^ 31 then some ((v : Int)) else none
      | none => none

/-! ## Civil calendar arithmetic and time zones

The chrono and chrono-tz crates are external collaborators of the
sources; the model below reimplements the slice the crate relies on:
proleptic Gregorian day arithmetic (the standard era-based algorithms)
and the Europe/Madrid offset (CET, with CEST between the last Sundays
of March and October, the EU rule the tz database encodes for the
modern era). Instants are seconds since the Unix epoch. -/

/-- Day number (days since 1970-01-01) of a civil year, month and day. -/
def daysFromCivil (y : Int) (m d : Nat) : Int :=
  let y' : Int := if m ≤ 2 then y - 1 else y
  let era : Int := y'.fdiv 400
  let yoe : Nat := (y' - era * 400).toNat
  let mp : Nat := if 2 < m then m - 3 else m + 9
  let doy : Nat := (153 * mp + 2) / 5 + d - 1
  let doe : Nat := yoe * 365 + yoe / 4 - yoe / 100 + doy
  era * 146097 + (doe : Int) - 719468

/-- Civil year, month and day of a day number. -/
def civilFromDays (z : Int) : Int × Nat × Nat :=
  let z' : Int := z + 719468
  let era : Int := z'.fdiv 146097
  let doe : Nat := (z' - era * 146097).toNat
  let yoe : Nat := (doe - doe / 1460 + doe / 36524 - doe / 146096) / 365
  let y : Int := (yoe : Int) + era * 400
  let doy : Nat := doe - (365 * yoe + yoe / 4 - yoe / 100)
  let mp : Nat := (5 * doy + 2) / 153
  let d : Nat := doy - (153 * mp + 2) / 5 + 1
  let m : Nat := if mp < 10 then mp + 3 else mp - 9
  (if m ≤ 2 then y + 1 else y, m, d)

/-- Day number of the last Sunday of the given 31-day month. -/
def lastSunday (y : Int) (month : Nat) : Int :=
  let d31 := daysFromCivil y month 31
  d31 - (d31 + 4).emod 7

/-- Offset of Europe/Madrid from UTC, in seconds, at the given instant:
7200 during summer time, 3600 otherwise. -/
def madridOffset (t : Int) : Int :=
  let y := (civilFromDays (t.fdiv 86400)).1
  let dstStart := lastSunday y 3 * 86400 + 3600
  let dstEnd := lastSunday y 10 * 86400 + 3600
  if dstStart ≤ t ∧ t < dstEnd then 7200 else 3600

/-- Time zones the crate uses: the fixed UC3M zone and UTC. -/
inductive Tz where
  | madrid
  | utc
deriving DecidableEq

/-- Offset from UTC in seconds of a zone at an instant. -/
def tzOffset : Tz → Int → Int
  | .utc, _ => 0
  | .madrid, t => madridOffset t

/-- IANA name of a zone, as chrono-tz reports it. -/
def tzName : Tz → List Char
  | .madrid => "Europe/Madrid".data
  | .utc => "UTC".data

/-- Embedding of chrono DateTime of Tz: an instant plus a display zone. -/
structure DateTime where
  instant : Int
  tz : Tz
deriving DecidableEq

/-- Embedding of the with_timezone conversion: same instant, new zone. -/
def DateTime.with_timezone (dt : DateTime) (tz : Tz) : DateTime :=
  { instant := dt.instant, tz := tz }

/-- Left-pads a digit string with zeros up to the given width. -/
def zeroPad (w : Nat) (s : List Char) : List Char :=
  List.replicate (w - s.length) '0' ++ s

/-- Two-digit zero-padded decimal field. -/
def pad2 (n : Nat) : List Char := zeroPad 2 (natToChars n)

/-- Four-column zero-padded decimal field for a possibly negative year. -/
def pad4int (y : Int) : List Char :=
  if y < 0 then '-' :: zeroPad 3 (natToChars y.natAbs) else zeroPad 4 (natToChars y.toNat)

/-- Embedding of format_date_time in src/ical/mod.rs: the local civil
time of the instant in its zone, rendered YYYYMMDDTHHMMSS. -/
def format_date_time (dt : DateTime) : List Char :=
  let ls := dt.instant + tzOffset dt.tz dt.instant
  let days := ls.fdiv 86400
  let sod := (ls - days * 86400).toNat
  let c := civilFromDays days
  pad4int c.1 ++ pad2 c.2.1 ++ pad2 c.2.2 ++ 'T' :: (pad2 (sod / 3600) ++ pad2 (sod % 3600 / 60) ++ pad2 (sod % 60))

/-- Embedding of chrono Date of Tz as the crate uses it: the naive civil
date (a day number) plus the zone. Equality of chrono Date values
compares the naive date, which this structure equality matches because
the zone is the same fixed zone everywhere in the crate. -/
structure Date where
  days : Int
  tz : Tz
deriving DecidableEq

/-- Resolves a naive local time (seconds since epoch read as wall-clock
seconds in the zone) to an instant; none when the wall-clock time is
skipped or ambiguous, matching LocalResult::single of chrono. -/
def fromLocalSingle (tz : Tz) (ls : Int) : Option DateTime :=
  match tz with
  | .utc => some { instant := ls, tz := .utc }
  | .madrid =>
    let c1 := ls - 3600
    let c2 := ls - 7200
    if madridOffset c1 = 3600 then
      if madridOffset c2 = 7200 then none else some { instant := c1, tz := .madrid }
    else
      if madridOffset c2 = 7200 then some { instant := c2, tz := .madrid } else none

/-- Embedding of Date::and_time: combine the naive date with a
wall-clock time of day (in seconds) and resolve it in the zone. -/
def Date.and_time (d : Date) (timeOfDay : Nat) : Option DateTime :=
  fromLocalSingle d.tz (d.days * 86400 + (timeOfDay : Int))

/-! ## The iCalendar data model (src/ical/mod.rs) -/

/-- Embedding of Param: a property parameter. Param::new asserts that no
value contains a double quote; the claims here never construct one, so
the assertion is not modelled. -/
structure Param where
  name : List Char
  values : List (List Char)
deriving DecidableEq

/-- Embedding of Prop (named with a prime because Prop is reserved). -/
structure Prop' where
  name : List Char
  params : List Param
  value : List Char
deriving DecidableEq

/-- Embedding of Prop::new: stores the value verbatim. -/
def Prop'.new (name : List Char) (value : List Char) : Prop' :=
  { name := name, params := [], value := value }

/-- Single-character replacement, modelling str::replace with a one-char
pattern. -/
def replaceChar (c : Char) (rep : List Char) : List Char → List Char
  | [] => []
  | x :: xs => (if x = c then rep else [x]) ++ replaceChar c rep xs

/-- Embedding of the escape chain inside Prop::text: backslash first,
then semicolon, comma and newline, exactly in the source order. -/
def escapeText (s : List Char) : List Char :=
  replaceChar '\n' ['\\', 'n']
    (replaceChar ',' ['\\', ',']
      (replaceChar ';' ['\\', ';']
        (replaceChar '\\' ['\\', '\\'] s)))

/-- Embedding of Prop::text: escape each value and join with commas. -/
def Prop'.text (name : List Char) (values : List (List Char)) : Prop' :=
  Prop'.new name (List.intercalate [','] (values.map escapeText))

/-- Embedding of Prop::date_time: a TZID parameter holding the global
zone id (leading solidus) and the local-time formatted value. -/
def Prop'.date_time (name : List Char) (dt : DateTime) : Prop' :=
  { name := name
  , params := [{ name := "TZID".data, values := ['/' :: tzName dt.tz] }]
  , value := format_date_time dt }

/-- Rendered text of one parameter: semicolon, name, equals, then the
values each in double quotes and joined by commas. -/
def paramText (p : Param) : List Char :=
  (';' :: p.name) ++ ('=' :: '"' :: (List.intercalate ['"', ',', '"'] p.values ++ ['"']))

/-- Embedding of the write_folded closure in the Display impl of Prop:
emits the characters of a part, tracking the running octet count of the
line; when adding a character would push the count past 75 it first
emits CRLF and a space and resets the count to that character plus the
continuation space. Returns the emitted characters and the new count. -/
def writeFolded : List Char → Nat → List Char × Nat
  | [], n => ([], n)
  | c :: cs, n =>
    if 75 < n + c.utf8Size then
      let r := writeFolded cs (1 + c.utf8Size)
      ('\r' :: '\n' :: ' ' :: c :: r.1, r.2)
    else
      let r := writeFolded cs (n + c.utf8Size)
      (c :: r.1, r.2)

/-- Folds each parameter text in turn, threading the octet count. -/
def writeParams : List Param → Nat → List Char × Nat
  | [], n => ([], n)
  | p :: ps, n =>
    let r := writeFolded (paramText p) n
    let r2 := writeParams ps r.2
    (r.1 ++ r2.1, r2.2)

/-- Unfolded content line of a property: name, parameters, colon, value
and the terminating CRLF. -/
def Prop'.line (p : Prop') : List Char :=
  p.name ++ (p.params.map paramText).flatten ++ (':' :: p.value) ++ ['\r', '\n']

/-- Embedding of the Display impl of Prop: the three folded writes of
the source (name, parameters, colon-value-CRLF) with the octet count
threaded through. -/
def Prop'.display (p : Prop') : List Char :=
  let r1 := writeFolded p.name 0
  let r2 := writeParams p.params r1.2
  let r3 := writeFolded ((':' :: p.value) ++ ['\r', '\n']) r2.2
  r1.1 ++ r2.1 ++ r3.1

/-- Unfolding transform described by the specification: delete every
CRLF-plus-space sequence, scanning left to right. -/
def strip : List Char → List Char
  | c1 :: c2 :: c3 :: rest =>
    if c1 = '\r' ∧ c2 = '\n' ∧ c3 = ' ' then strip rest
    else c1 :: strip (c2 :: c3 :: rest)
  | other => other

/-- Tests whether a string contains a CRLF-plus-space sequence. -/
def containsCRLFSp : List Char → Bool
  | c1 :: c2 :: c3 :: rest =>
    if c1 = '\r' ∧ c2 = '\n' ∧ c3 = ' ' then true
    else containsCRLFSp (c2 :: c3 :: rest)
  | _ => false

/-- Octet lengths of the physical lines of a rendered text: the text is
split at each CRLF pair and each segment is measured in UTF-8 bytes,
the CRLF itself not counted. -/
def lineLens : List Char → Nat → List Nat
  | [], cur => [cur]
  | [c], cur => [cur + c.utf8Size]
  | c1 :: c2 :: rest, cur =>
    if c1 = '\r' ∧ c2 = '\n' then cur :: lineLens rest 0
    else lineLens (c2 :: rest) (cur + c1.utf8Size)

/-! ## Components, events and recurrence rules (src/ical/components.rs) -/

/-- Embedding of Component: a named group of properties. -/
structure Component where
  name : List Char
  props : List Prop'
deriving DecidableEq

/-- Embedding of PropHolder::first_prop. -/
def Component.first_prop (c : Component) (name : List Char) : Option Prop' :=
  c.props.find? (fun p => decide (p.name = name))

/-- Embedding of TimeUnit. -/
inductive TimeUnit where
  | Second
  | Minute
  | Hour
  | Day
  | Week
  | Month
  | Year
deriving DecidableEq

/-- Embedding of TimeUnit::recurrence_freq. -/
def TimeUnit.recurrence_freq : TimeUnit → List Char
  | .Second => "SECONDLY".data
  | .Minute => "MINUTELY".data
  | .Hour => "HOURLY".data
  | .Day => "DAILY".data
  | .Week => "WEEKLY".data
  | .Month => "MONTHLY".data
  | .Year => "YEARLY".data

/-- Embedding of Recurrence. The count and interval fields are NonZeroU32
in the source; here plain Nat, with the factories enforcing positivity. -/
structure Recurrence where
  frequency : TimeUnit
  until_ : Option DateTime
  count : Option Nat
  interval : Option Nat
deriving DecidableEq

/-- Embedding of Recurrence::until; the field until_ stands for the Rust
field until, which is a reserved word here. -/
def Recurrence.mkUntil (frequency : TimeUnit) (u : DateTime) : Recurrence :=
  { frequency := frequency, until_ := some u, count := none, interval := none }

/-- Embedding of Recurrence::times; none models the fatal stop when the
count is zero. -/
def Recurrence.times (frequency : TimeUnit) (count : Nat) : Option Recurrence :=
  if count = 0 then none
  else some { frequency := frequency, until_ := none, count := some count, interval := none }

/-- Embedding of the Display impl of Recurrence. The source unwraps the
count when no until bound is present; factory-built values always have
one of the two, so the none-none corner renders an empty count here. -/
def Recurrence.display (r : Recurrence) : List Char :=
  ("FREQ=".data ++ r.frequency.recurrence_freq) ++
    (match r.until_ with
     | some u => ";UNTIL=".data ++ format_date_time (u.with_timezone .utc)
     | none => ";COUNT=".data ++ ((r.count.map natToChars).getD [])) ++
    (match r.interval with
     | some i => ";INTERVAL=".data ++ natToChars i
     | none => [])

/-- Embedding of chrono Duration as whole seconds. -/
abbrev Duration := Int

/-- Rendering of a chrono Duration, which for the whole-second spans the
crate builds prints PT followed by the seconds and S. -/
def durationToString (d : Duration) : List Char :=
  'P' :: 'T' :: (intToChars d ++ ['S'])

/-- Embedding of Event. The end and duration fields are mutually
exclusive; the field end_ stands for the Rust field end, which is a
reserved word here. -/
structure Event where
  uid : List Char
  last_modified : DateTime
  start : DateTime
  created_on : Option DateTime
  summary : Option (List Char)
  description : Option (List Char)
  location : Option (List Char)
  recurrence : Option Recurrence
  end_ : Option DateTime
  duration : Option Duration
deriving DecidableEq

/-- Embedding of Event::new. -/
def Event.new (uid : List Char) (last_modified start : DateTime) : Event :=
  { uid := uid, last_modified := last_modified, start := start
  , created_on := none, summary := none, description := none, location := none
  , recurrence := none, end_ := none, duration := none }

/-- Embedding of the created_on builder method. -/
def Event.setCreatedOn (e : Event) (created_on : DateTime) : Event :=
  { e with created_on := some created_on }

/-- Embedding of the summary builder method. -/
def Event.setSummary (e : Event) (summary : List Char) : Event :=
  { e with summary := some summary }

/-- Embedding of the description builder method. -/
def Event.setDescription (e : Event) (description : List Char) : Event :=
  { e with description := some description }

/-- Embedding of the location builder method. -/
def Event.setLocation (e : Event) (location : List Char) : Event :=
  { e with location := some location }

/-- Embedding of the recurrence builder method. -/
def Event.setRecurrence (e : Event) (recurrence : Recurrence) : Event :=
  { e with recurrence := some recurrence }

/-- Embedding of the end builder method; none models the fatal stop when
a duration is already set. -/
def Event.setEnd (e : Event) (end_ : DateTime) : Option Event :=
  if e.duration.isSome then none else some { e with end_ := some end_ }

/-- Embedding of the duration builder method; none models the fatal stop
when an end is already set or the duration is not positive. The source
checks the end first, then positivity, in that order. -/
def Event.setDuration (e : Event) (duration : Duration) : Option Event :=
  if e.end_.isSome then none
  else if duration ≤ 0 then none
  else some { e with duration := some duration }

/-- Embedding of the From Event for Component impl: the three mandatory
properties, then the optional ones flattened in source order. -/
def Component.ofEvent (e : Event) : Component :=
  { name := "VEVENT".data
  , props :=
      [ Prop'.date_time "DTSTAMP".data e.last_modified
      , Prop'.text "UID".data [e.uid]
      , Prop'.date_time "DTSTART".data e.start ] ++
      ([ e.created_on.map (fun c => Prop'.date_time "CREATED".data c)
       , e.summary.map (fun s => Prop'.new "SUMMARY".data s)
       , e.description.map (fun d => Prop'.new "DESCRIPTION".data d)
       , e.location.map (fun l => Prop'.new "LOCATION".data l)
       , e.end_.map (fun en => Prop'.date_time "DTEND".data en)
       , e.duration.map (fun d => Prop'.new "DURATION".data (durationToString d))
       , e.recurrence.map (fun r => Prop'.new "RRULE".data r.display)
       ].filterMap id) }

/-! ## The Process iterator adapter (src/util.rs) -/

/-- State of the Process adapter: the remaining wrapped iterator and the
shared error slot. -/
structure ProcessState (T E : Type) where
  iter : List (Except E T)
  state : Except E Unit

/-- Embedding of the next method of the Iterator impl for Process: if
the slot already holds an error the sequence ends without touching the
source; otherwise one item is pulled and either yielded or, on a
failure, recorded in the slot. -/
def pnext {T E : Type} (s : ProcessState T E) : Option T × ProcessState T E :=
  match s.state with
  | .error e => (none, ⟨s.iter, .error e⟩)
  | .ok _ =>
    match s.iter with
    | [] => (none, ⟨[], .ok ()⟩)
    | .ok v :: rest => (some v, ⟨rest, .ok ()⟩)
    | .error e :: rest => (none, ⟨rest, .error e⟩)

/-- Recursive worker for draining the adapter. -/
def drainAux {T E : Type} (iter : List (Except E T)) (st : Except E Unit) :
    List T × ProcessState T E :=
  match st with
  | .error e => ([], ⟨iter, .error e⟩)
  | .ok _ =>
    match iter with
    | [] => ([], ⟨[], .ok ()⟩)
    | .ok v :: rest =>
      let r := drainAux rest (.ok ())
      (v :: r.1, r.2)
    | .error e :: rest => ([], ⟨rest, .error e⟩)

/-- Drains the adapter: collects every yielded value until a pull
returns none, returning the values and the final state. -/
def drain {T E : Type} (s : ProcessState T E) : List T × ProcessState T E :=
  drainAux s.iter s.state

/-! ## Timetable identity and its address (src/lib.rs) -/

/-- Domain hosting the timetable documents. -/
def uc3mDomain : List Char := "aplicaciones.uc3m.es".data

/-- Embedding of TimetableId. The numeric fields are u16, u8, u8, u16
and u8 in the source; here Nat with bounds stated where needed. -/
structure TimetableId where
  year : Int
  plan : Nat
  center : Nat
  grade : Nat
  group : Nat
  period : Nat
  time_zone : Tz
deriving DecidableEq

/-- Embedding of the parsed Url value the url method produces and the
TryFrom impl consumes: the domain, the path segments and the decoded
query pairs in order. -/
structure Url where
  domain : Option (List Char)
  pathSegments : Option (List (List Char))
  queryPairs : List (List Char × List Char)
deriving DecidableEq

/-- Embedding of TimetableId::url: the year path segment and the six
query parameters with their fixed external names, in source order. -/
def TimetableId.url (id : TimetableId) : Url :=
  { domain := some uc3mDomain
  , pathSegments := some
      [ "horarios-web".data, "publicacion".data, intToChars id.year
      , "porCentroPlanCursoGrupo.tt".data ]
  , queryPairs :=
      [ ("plan".data, natToChars id.plan)
      , ("centro".data, natToChars id.center)
      , ("curso".data, natToChars id.grade)
      , ("grupo".data, natToChars id.group)
      , ("tipoPer".data, ['C'])
      , ("valorPer".data, natToChars id.period) ] }

/-- Embedding of TimetableUrlParseError; the ParseIntError payload of
the year variant is dropped. -/
inductive TimetableUrlParseError where
  | MissingDomain
  | IncorrectDomain
  | CannotBeABaseUrl
  | MissingYearSegment
  | InvalidYearSegment
  | MissingQueryParam (name : List Char)
  | InvalidQueryParam (name : List Char)
deriving DecidableEq

/-- Last-occurrence lookup in an association list, modelling the
HashMap built by collecting the query pairs, where a later insert for
the same key overwrites an earlier one. -/
def lookupLast (k : List Char) : List (List Char × List Char) → Option (List Char)
  | [] => none
  | (k', v) :: rest =>
    match lookupLast k rest with
    | some v' => some v'
    | none => if k' = k then some v else none

/-- Embedding of the parse_query_param helper inside the TryFrom impl. -/
def parseQueryParam (bits : Nat) (queryPairs : List (List Char × List Char))
    (name : List Char) : Except TimetableUrlParseError Nat :=
  match lookupLast name queryPairs with
  | none => .error (.MissingQueryParam name)
  | some raw =>
    match parseUInt bits raw with
    | none => .error (.InvalidQueryParam name)
    | some v => .ok v

/-- Embedding of the TryFrom Url impl for TimetableId: domain check,
third path segment parsed as the year, then the five numeric query
parameters; the tipoPer parameter is never read. -/
def TimetableId.try_from (u : Url) : Except TimetableUrlParseError TimetableId :=
  match u.domain with
  | none => .error .MissingDomain
  | some d =>
    if d ≠ uc3mDomain then .error .IncorrectDomain
    else
      match u.pathSegments with
      | none => .error .CannotBeABaseUrl
      | some segs =>
        match segs.drop 2 with
        | [] => .error .MissingYearSegment
        | yearSeg :: _ =>
          match parseI32 yearSeg with
          | none => .error .InvalidYearSegment
          | some year =>
            match parseQueryParam 16 u.queryPairs ("plan".data) with
            | .error e => .error e
            | .ok plan =>
              match parseQueryParam 8 u.queryPairs ("centro".data) with
              | .error e => .error e
              | .ok center =>
                match parseQueryParam 8 u.queryPairs ("curso".data) with
                | .error e => .error e
                | .ok grade =>
                  match parseQueryParam 16 u.queryPairs ("grupo".data) with
                  | .error e => .error e
                  | .ok group =>
                    match parseQueryParam 8 u.queryPairs ("valorPer".data) with
                    | .error e => .error e
                    | .ok period =>
                      .ok ⟨year, plan, center, grade, group, period, Tz.madrid⟩

/-! ## The timetable extractor (src/parse.rs) -/

/-- Product name used for the PRODID property and event identifiers. -/
def productName : List Char := "uc3m-timetable.hugmanrique.me".data

/-- Embedding of ParseError; the ParseIntError payloads are dropped. -/
inductive ParseError where
  | MissingTbodyElem
  | MissingRowTimeCell
  | ChildlessTimeElement
  | NonTextualTimeNode
  | NonElementMinutesNode
  | NonNumericTimeValue
  | InvalidRowSpan
  | MissingGroupElem
  | ChildlessGroupElem
  | NonTextualGroupChild
  | MissingSessionsElem
  | NonElementSessionDateNode
  | NonElementSessionLocationNode
  | MissingDateRange
  | NonTextualDateRange
  | MissingLocationSpan
  | NonTextualLocationSpan
  | InvalidStartDate
  | InvalidEndDate
  | InvalidDateFormat
  | InvalidDay
  | InvalidMonth
deriving DecidableEq

/-- Minimal embedding of the scraper node tree: an element with child
nodes, or a text node. ElementRef::wrap succeeds exactly on elements. -/
inductive Node where
  | element (children : List Node)
  | text (s : List Char)

/-- First child of a node; text nodes have none. -/
def Node.first_child : Node → Option Node
  | .element cs => cs.head?
  | .text _ => none

/-- Embedding of Node::as_text on a node value. -/
def Node.as_text : Node → Option (List Char)
  | .element _ => none
  | .text s => some s

/-- Splits a string at the first occurrence of a separator, modelling
str::split_once. -/
def splitOnce (sep : Char) : List Char → Option (List Char × List Char)
  | [] => none
  | c :: rest =>
    if c = sep then some ([], rest)
    else (splitOnce sep rest).map (fun r => (c :: r.1, r.2))

/-- Removes every trailing colon, modelling str::trim_end_matches. -/
def trimEndColons (s : List Char) : List Char :=
  (s.reverse.dropWhile (fun c => c = ':')).reverse

/-- Month number of a Spanish three-letter month abbreviation. -/
def monthOf (m : List Char) : Option Nat :=
  if m = "ene".data then some 1
  else if m = "feb".data then some 2
  else if m = "mar".data then some 3
  else if m = "abr".data then some 4
  else if m = "may".data then some 5
  else if m = "jun".data then some 6
  else if m = "jul".data then some 7
  else if m = "ago".data then some 8
  else if m = "sep".data then some 9
  else if m = "oct".data then some 10
  else if m = "nov".data then some 11
  else if m = "dic".data then some 12
  else none

/-- Embedding of the Cell context: the identity year and zone and the
parser creation instant (reached through the parser reference in the
source), the start wall-clock time of the row in seconds of day, and
the cell duration in seconds (fifteen minutes times the rowspan). -/
structure Cell where
  year : Int
  tz : Tz
  created_on : DateTime
  start_time : Nat
  duration : Int
deriving DecidableEq

/-- Embedding of Cell::parse_date: day dot month-abbreviation, resolved
against the identity year. The source builds the date with ymd, which
stops fatally on an out-of-range day; the day arithmetic here is total
and the claims never exercise that corner. -/
def Cell.parse_date (c : Cell) (date : List Char) : Except ParseError Date :=
  match splitOnce '.' date with
  | none => .error .InvalidDateFormat
  | some (dayS, monthS) =>
    match parseUInt 32 dayS with
    | none => .error .InvalidDay
    | some day =>
      match monthOf monthS with
      | none => .error .InvalidMonth
      | some month => .ok { days := daysFromCivil c.year month day, tz := c.tz }

/-- Embedding of Cell::parse_date_range: split at the first dash, or a
single-day range when there is none. -/
def Cell.parse_date_range (c : Cell) (range : List Char) :
    Except ParseError (Date × Date) :=
  match splitOnce '-' range with
  | some (s, e) =>
    match c.parse_date s with
    | .error err => .error err
    | .ok sd =>
      match c.parse_date e with
      | .error err => .error err
      | .ok ed => .ok (sd, ed)
  | none =>
    match c.parse_date range with
    | .error err => .error err
    | .ok d => .ok (d, d)

/-- Embedding of Cell::parse_session. The outer Option layer models the
fatal stop inside the duration builder call; the inner Except carries
the recoverable parse errors, in source order. -/
def Cell.parse_session (c : Cell) (date_range_span location_span : Node)
    (course_name : List Char) : Option (Except ParseError Event) :=
  match date_range_span.first_child with
  | none => some (.error .MissingDateRange)
  | some dn =>
    match dn.as_text with
    | none => some (.error .NonTextualDateRange)
    | some rawText =>
      let raw_range := trimEndColons rawText
      match c.parse_date_range raw_range with
      | .error e => some (.error e)
      | .ok (start_date, end_date) =>
        match location_span.first_child with
        | none => some (.error .MissingLocationSpan)
        | some ln =>
          match ln.as_text with
          | none => some (.error .NonTextualLocationSpan)
          | some location =>
            match start_date.and_time c.start_time with
            | none => some (.error .InvalidStartDate)
            | some start_datetime =>
              let uid := course_name ++ ('-' :: raw_range) ++ ('@' :: productName)
              match (((Event.new uid c.created_on start_datetime).setSummary
                  course_name).setLocation location).setDuration c.duration with
              | none => none
              | some event =>
                if start_date = end_date then some (.ok event)
                else
                  match end_date.and_time c.start_time with
                  | none => some (.error .InvalidEndDate)
                  | some end_datetime =>
                    some (.ok (event.setRecurrence
                      (Recurrence.mkUntil .Week end_datetime)))

/-- Embedding of the Itertools tuples adapter for triples: complete
triples in order, any trailing remainder of one or two items dropped. -/
def triples {α : Type} : List α → List (α × α × α)
  | a :: b :: c :: rest => (a, b, c) :: triples rest
  | _ => []

/-- Embedding of one mapped step inside push_sessions: wrap the date and
location nodes as elements and parse the session; the separator node of
the triple is ignored. -/
def parseTriple (c : Cell) (course_name : List Char) :
    Node × Node × Node → Option (Except ParseError Event)
  | (d, l, _) =>
    match d with
    | .text _ => some (.error .NonElementSessionDateNode)
    | .element dc =>
      match l with
      | .text _ => some (.error .NonElementSessionLocationNode)
      | .element lc =>
        c.parse_session (.element dc) (.element lc) course_name

/-- Lazy fail-fast drive of the mapped triples, as the process adapter
runs inside push_sessions: items after the first recoverable error are
never evaluated, so a later fatal step cannot fire. -/
def runSession {α : Type} (f : α → Option (Except ParseError Event)) :
    List α → Option (List Event × Except ParseError Unit)
  | [] => some ([], .ok ())
  | x :: rest =>
    match f x with
    | none => none
    | some (.error e) => some ([], .error e)
    | some (.ok v) =>
      (runSession f rest).map (fun r => (v :: r.1, r.2))

/-- Embedding of Cell::push_sessions: read the course name from the
first child of the group element, locate the sessions element (its
child list is passed here already located, none when the selector finds
nothing), then consume the session nodes three at a time. The returned
pair carries the events extended onto the destination buffer and the
shared process result. -/
def Cell.push_sessions (c : Cell) (groupChildren : List Node)
    (sessionChildren : Option (List Node)) :
    Option (List Event × Except ParseError Unit) :=
  match groupChildren with
  | [] => some ([], .error .ChildlessGroupElem)
  | n :: _ =>
    match n.as_text with
    | none => some ([], .error .NonTextualGroupChild)
    | some course_name =>
      match sessionChildren with
      | none => some ([], .error .MissingSessionsElem)
      | some ns => runSession (parseTriple c course_name) (triples ns)

/-- Event value assembled by parse_session before the recurrence
decision: the derived identifier, the parser creation instant as the
last-modified stamp, the resolved start, the course summary, the
location and the cell duration. -/
def sessionEvent (c : Cell) (raw_range course_name location : List Char)
    (start_datetime : DateTime) : Event :=
  { Event.new (course_name ++ ('-' :: raw_range) ++ ('@' :: productName))
      c.created_on start_datetime with
    summary := some course_name, location := some location,
    duration := some c.duration }

/-! ## Specification-side definitions

These definitions follow the words of the specification, to be compared
against the source-side definitions above. -/

/-- Independent per-character escape described by the specification:
backslash, semicolon, comma and newline each escaped on their own. -/
def escapeSpecChar (c : Char) : List Char :=
  if c = '\\' then ['\\', '\\']
  else if c = ';' then ['\\', ';']
  else if c = ',' then ['\\', ',']
  else if c = '\n' then ['\\', 'n']
  else [c]

/-- Independent escape of a whole string, per the specification. -/
def escapeSpec (s : List Char) : List Char :=
  (s.map escapeSpecChar).flatten

/-- Decidable equality for Except values, used to evaluate concrete
parse results. -/
instance {e a : Type} [DecidableEq e] [DecidableEq a] : DecidableEq (Except e a) := fun x y =>
  match x, y with
  | .ok v, .ok w => if h : v = w then isTrue (by rw [h]) else isFalse (by simp [h])
  | .error v, .error w => if h : v = w then isTrue (by rw [h]) else isFalse (by simp [h])
  | .ok _, .error _ => isFalse (by simp)
  | .error _, .ok _ => isFalse (by simp)

/-! ## Helper lemmas -/

theorem drain_mk {T E : Type} (iter : List (Except E T)) (st : Except E Unit) :
    drain ⟨iter, st⟩ = drainAux iter st := rfl

theorem drain_step {T E : Type} (s : ProcessState T E) :
    drain s = (match pnext s with
      | (none, s') => ([], s')
      | (some v, s') => (v :: (drain s').1, (drain s').2)) := by
  rcases s with ⟨iter, st⟩
  cases st with
  | error e => simp [pnext, drain_mk, drainAux]
  | ok u =>
    cases iter with
    | nil => simp [pnext, drain_mk, drainAux]
    | cons x rest => cases x <;> simp [pnext, drain_mk, drainAux]

theorem drainAux_map_ok {T E : Type} (vs : List T) :
    drainAux (vs.map Except.ok) (Except.ok ()) = ((vs, ⟨[], Except.ok ()⟩) : List T × ProcessState T E) := by
  induction vs with
  | nil => rfl
  | cons v rest ih => simp [drainAux, ih]

theorem drain_map_ok {T E : Type} (vs : List T) :
    drain (⟨vs.map Except.ok, Except.ok ()⟩ : ProcessState T E) = (vs, ⟨[], Except.ok ()⟩) := by
  rw [drain_mk]; exact drainAux_map_ok vs

theorem drainAux_prefix_err {T E : Type} (pre : List T) (e : E) (post : List (Except E T)) :
    drainAux (pre.map Except.ok ++ Except.error e :: post) (Except.ok ())
      = ((pre, ⟨post, Except.error e⟩) : List T × ProcessState T E) := by
  induction pre with
  | nil => rfl
  | cons v rest ih => simp [drainAux, ih]

theorem drain_prefix_err {T E : Type} (pre : List T) (e : E) (post : List (Except E T)) :
    drain (⟨pre.map Except.ok ++ Except.error e :: post, Except.ok ()⟩ : ProcessState T E)
      = (pre, ⟨post, Except.error e⟩) := by
  rw [drain_mk]; exact drainAux_prefix_err pre e post

theorem replaceChar_append (c : Char) (rep a b : List Char) :
    replaceChar c rep (a ++ b) = replaceChar c rep a ++ replaceChar c rep b := by
  induction a with
  | nil => rfl
  | cons x xs ih => simp [replaceChar, ih]

theorem escapeText_append (a b : List Char) :
    escapeText (a ++ b) = escapeText a ++ escapeText b := by
  simp [escapeText, replaceChar_append]

theorem escapeText_single (x : Char) : escapeText [x] = escapeSpecChar x := by
  by_cases h1 : x = '\\'
  · subst h1; rfl
  · by_cases h2 : x = ';'
    · subst h2; rfl
    · by_cases h3 : x = ','
      · subst h3; rfl
      · by_cases h4 : x = '\n'
        · subst h4; rfl
        · simp [escapeText, replaceChar, escapeSpecChar, h1, h2, h3, h4]

theorem escapeText_eq_escapeSpec (s : List Char) : escapeText s = escapeSpec s := by
  induction s with
  | nil => rfl
  | cons x xs ih =>
    have : x :: xs = [x] ++ xs := rfl
    rw [this, escapeText_append, escapeText_single, ih]
    simp [escapeSpec]

/-! ## Claim theorems for the adapter, the model builders and escaping -/

/-- C3: the Process adapter yields exactly the prefix of successes before
the first failure; the first failure is stored in the shared slot and the
sequence ends without pulling further items; a fully successful source
yields every value with the slot left ok; and the specific source
consisting of ok 1, an error, then ok 2 yields exactly the value 1 and
leaves the slot holding that error. -/
theorem c3_process_fail_fast :
    (∀ (T E : Type) (pre : List T) (e : E) (post : List (Except E T)),
      drain (⟨pre.map Except.ok ++ Except.error e :: post, Except.ok ()⟩ : ProcessState T E)
        = (pre, ⟨post, Except.error e⟩))
    ∧ (∀ (T E : Type) (vs : List T),
      drain (⟨vs.map Except.ok, Except.ok ()⟩ : ProcessState T E) = (vs, ⟨[], Except.ok ()⟩))
    ∧ (∀ (T E : Type) (iter : List (Except E T)) (e : E),
      pnext (⟨iter, Except.error e⟩ : ProcessState T E) = (none, ⟨iter, Except.error e⟩))
    ∧ drain (⟨[Except.ok 1, Except.error 7, Except.ok 2], Except.ok ()⟩ : ProcessState Nat Nat)
        = ([1], ⟨[Except.ok 2], Except.error 7⟩) :=
  ⟨fun _ _ pre e post => drain_prefix_err pre e post,
   fun _ _ vs => drain_map_ok vs,
   fun _ _ _ _ => rfl,
   rfl⟩

/-- C4: converting an Event into a Component produces the property names
DTSTAMP, UID, DTSTART in that order, followed by CREATED, SUMMARY,
DESCRIPTION, LOCATION, DTEND, DURATION and RRULE, each of the optional
ones present exactly when the corresponding field is present. -/
theorem c4_event_component_order (e : Event) :
    (Component.ofEvent e).props.map Prop'.name =
      ["DTSTAMP".data, "UID".data, "DTSTART".data]
      ++ (if e.created_on.isSome then ["CREATED".data] else [])
      ++ (if e.summary.isSome then ["SUMMARY".data] else [])
      ++ (if e.description.isSome then ["DESCRIPTION".data] else [])
      ++ (if e.location.isSome then ["LOCATION".data] else [])
      ++ (if e.end_.isSome then ["DTEND".data] else [])
      ++ (if e.duration.isSome then ["DURATION".data] else [])
      ++ (if e.recurrence.isSome then ["RRULE".data] else []) := by
  rcases e with ⟨uid, lm, st, co, su, de, lo, re, en, du⟩
  cases co <;> cases su <;> cases de <;> cases lo <;> cases re <;> cases en <;> cases du <;>
    simp [Component.ofEvent, Prop'.date_time, Prop'.text, Prop'.new]

/-- C6: the Event builder stops fatally when both end and duration would
be set, in either order: setting the end of an event that already has a
duration fails, and setting the duration of an event that already has an
end fails. -/
theorem c6_end_duration_exclusive (e : Event) (dt : DateTime) (d : Duration) :
    (e.duration.isSome = true → e.setEnd dt = none)
    ∧ (e.end_.isSome = true → e.setDuration d = none) := by
  constructor
  · intro h; simp [Event.setEnd, h]
  · intro h; simp [Event.setDuration, h]

/-- Witness for C6 at a concrete event built in each order. -/
theorem c6_end_duration_witness :
    Event.setEnd
        { Event.new "t".data ⟨0, Tz.madrid⟩ ⟨0, Tz.madrid⟩ with duration := some 7200 }
        ⟨7200, Tz.madrid⟩ = none
    ∧ Event.setDuration
        { Event.new "t".data ⟨0, Tz.madrid⟩ ⟨0, Tz.madrid⟩ with end_ := some ⟨7200, Tz.madrid⟩ }
        10800 = none :=
  ⟨(c6_end_duration_exclusive _ ⟨7200, Tz.madrid⟩ 0).1 (by decide),
   (c6_end_duration_exclusive _ ⟨0, Tz.madrid⟩ 10800).2 (by decide)⟩

/-- C8: the stored value of a text property is the comma-join of the
inputs with backslash, semicolon, comma and newline each escaped
independently, and the documented example escapes as stated. -/
theorem c8_text_escaping :
    (∀ (name : List Char) (values : List (List Char)),
      (Prop'.text name values).value = List.intercalate [','] (values.map escapeSpec))
    ∧ escapeText "a;b,c\\d".data = "a\\;b\\,c\\\\d".data := by
  constructor
  · intro name values
    have h : escapeText = escapeSpec := funext escapeText_eq_escapeSpec
    simp [Prop'.text, Prop'.new, h]
  · decide

/-- C9: the summary, description and location strings of an Event are
stored verbatim in the converted Component (through Prop::new, not the
escaping Prop::text), so special characters reach the rendered value
unescaped. -/
theorem c9_verbatim_props (e : Event) (s d l : List Char) :
    (e.summary = some s →
      (Component.ofEvent e).first_prop "SUMMARY".data = some (Prop'.new "SUMMARY".data s))
    ∧ (e.description = some d →
      (Component.ofEvent e).first_prop "DESCRIPTION".data
        = some (Prop'.new "DESCRIPTION".data d))
    ∧ (e.location = some l →
      (Component.ofEvent e).first_prop "LOCATION".data
        = some (Prop'.new "LOCATION".data l)) := by
  rcases e with ⟨uid, lm, st, co, su, de, lo, re, en, du⟩
  refine ⟨fun hs => ?_, fun hd => ?_, fun hl => ?_⟩
  · simp only at hs; subst hs
    cases co <;> cases de <;> cases lo <;> cases re <;> cases en <;> cases du <;> rfl
  · simp only at hd; subst hd
    cases co <;> cases su <;> cases lo <;> cases re <;> cases en <;> cases du <;> rfl
  · simp only at hl; subst hl
    cases co <;> cases su <;> cases de <;> cases re <;> cases en <;> cases du <;> rfl

/-- Witness for C9 at a concrete event whose three strings contain the
special characters. -/
theorem c9_verbatim_props_witness :
    (Component.ofEvent
        { Event.new "u".data ⟨0, Tz.madrid⟩ ⟨0, Tz.madrid⟩ with
          summary := some "a;b".data, description := some "c\\d\ne".data,
          location := some "f,g".data }).first_prop "SUMMARY".data
      = some (Prop'.new "SUMMARY".data "a;b".data)
    ∧ (Component.ofEvent
        { Event.new "u".data ⟨0, Tz.madrid⟩ ⟨0, Tz.madrid⟩ with
          summary := some "a;b".data, description := some "c\\d\ne".data,
          location := some "f,g".data }).first_prop "DESCRIPTION".data
      = some (Prop'.new "DESCRIPTION".data "c\\d\ne".data) :=
  ⟨(c9_verbatim_props _ "a;b".data "c\\d\ne".data "f,g".data).1 rfl,
   (c9_verbatim_props _ "a;b".data "c\\d\ne".data "f,g".data).2.1 rfl⟩

/-! ## Decimal round-trip lemmas -/

theorem digitChar_isDigit (d : Nat) (h : d < 10) : (digitChar d).isDigit = true := by
  interval_cases d <;> decide

theorem digitChar_toNat (d : Nat) (h : d < 10) : (digitChar d).toNat - 48 = d := by
  interval_cases d <;> decide

theorem digitChar_ne_dash (d : Nat) (h : d < 10) : digitChar d ≠ '-' := by
  interval_cases d <;> decide

theorem digitChar_ne_plus (d : Nat) (h : d < 10) : digitChar d ≠ '+' := by
  interval_cases d <;> decide

theorem parseDigitsAux_natToCharsAux (n : Nat) :
    ∀ fuel, n < fuel → ∀ acc rest,
      parseDigitsAux acc (natToCharsAux fuel n ++ rest)
        = parseDigitsAux (acc * 10 ^ (natToCharsAux fuel n).length + n) rest := by
  induction n using Nat.strong_induction_on with
  | _ n ih =>
    intro fuel hf acc rest
    match fuel, hf with
    | fuel + 1, hf =>
      by_cases hn : n = 0
      · subst hn; simp [natToCharsAux]
      · have hpos : 0 < n := Nat.pos_of_ne_zero hn
        have hdiv : n / 10 < n := Nat.div_lt_self hpos (by norm_num)
        have hdiv' : n / 10 < fuel := by omega
        have hmod : n % 10 < 10 := Nat.mod_lt n (by norm_num)
        simp only [natToCharsAux, if_neg hn]
        rw [List.append_assoc, ih (n / 10) hdiv fuel hdiv' acc ([digitChar (n % 10)] ++ rest)]
        simp only [List.singleton_append, parseDigitsAux, digitChar_isDigit (n % 10) hmod,
      if_true, digitChar_toNat (n % 10) hmod, List.length_append, List.length_singleton]
        rw [pow_succ]
        have hdm : 10 * (n / 10) + n % 10 = n := Nat.div_add_mod n 10
        have harith : (acc * 10 ^ (natToCharsAux fuel (n / 10)).length + n / 10) * 10 + (n % 10)
            = acc * (10 ^ (natToCharsAux fuel (n / 10)).length * 10) + n := by
          calc (acc * 10 ^ (natToCharsAux fuel (n / 10)).length + n / 10) * 10 + (n % 10)
              = acc * (10 ^ (natToCharsAux fuel (n / 10)).length * 10) + (10 * (n / 10) + n % 10) := by
                ring
            _ = acc * (10 ^ (natToCharsAux fuel (n / 10)).length * 10) + n := by rw [hdm]
        rw [harith]
        rfl

theorem parseDigits_natToChars (n : Nat) : parseDigits (natToChars n) = some n := by
  by_cases hn : n = 0
  · subst hn; decide
  · have h1 : natToChars n = natToCharsAux (n + 1) n := by simp [natToChars, hn]
    have h2 := parseDigitsAux_natToCharsAux n (n + 1) (by omega) 0 []
    rw [List.append_nil] at h2
    have h3 : natToCharsAux (n + 1) n ≠ [] := by
      simp [natToCharsAux, hn]
    rw [h1, parseDigits, if_neg h3, h2]
    simp [parseDigitsAux]

theorem natToCharsAux_head (n : Nat) : ∀ fuel, n < fuel → n ≠ 0 →
    ∃ d t, d < 10 ∧ natToCharsAux fuel n = digitChar d :: t := by
  induction n using Nat.strong_induction_on with
  | _ n ih =>
    intro fuel hf hn
    match fuel, hf with
    | fuel + 1, hf =>
      have hpos : 0 < n := Nat.pos_of_ne_zero hn
      have hdiv : n / 10 < n := Nat.div_lt_self hpos (by norm_num)
      have hmod : n % 10 < 10 := Nat.mod_lt n (by norm_num)
      simp only [natToCharsAux, if_neg hn]
      by_cases hq : n / 10 = 0
      · rw [hq]
        refine ⟨n % 10, [], hmod, ?_⟩
        cases fuel with
        | zero => omega
        | succ f => simp [natToCharsAux]
      · obtain ⟨d, t, hd, ht⟩ := ih (n / 10) hdiv fuel (by omega) hq
        exact ⟨d, t ++ [digitChar (n % 10)], hd, by rw [ht]; rfl⟩

theorem natToChars_head (n : Nat) :
    ∃ d t, d < 10 ∧ natToChars n = digitChar d :: t := by
  by_cases hn : n = 0
  · exact ⟨0, [], by norm_num, by subst hn; rfl⟩
  · obtain ⟨d, t, hd, ht⟩ := natToCharsAux_head n (n + 1) (by omega) hn
    exact ⟨d, t, hd, by simp [natToChars, hn, ht]⟩

theorem parseUInt_natToChars (bits n : Nat) (h : n < 2 ^ bits) :
    parseUInt bits (natToChars n) = some n := by
  obtain ⟨d, t, hd, ht⟩ := natToChars_head n
  have hplus := digitChar_ne_plus d hd
  simp only [parseUInt, ht, if_neg hplus]
  rw [← ht, parseDigits_natToChars n]
  simp [h]

theorem parseI32_intToChars (y : Int) (h1 : -(2 ^ 31) ≤ y) (h2 : y < 2 ^ 31) :
    parseI32 (intToChars y) = some y := by
  have h31 : (2 : Int) ^ 31 = 2147483648 := by norm_num
  have h31n : (2 : Nat) ^ 31 = 2147483648 := by norm_num
  rw [h31] at h1 h2
  by_cases hy : y < 0
  · simp only [intToChars, if_pos hy, parseI32, if_pos rfl]
    rw [show parseDigits (natToChars y.natAbs) = some y.natAbs from parseDigits_natToChars _]
    have hb : y.natAbs ≤ 2 ^ 31 := by rw [h31n]; omega
    simp only [if_pos hb, Option.some.injEq]
    rw [Int.natCast_natAbs, abs_of_neg hy]
    simp
  · obtain ⟨d, t, hd, ht⟩ := natToChars_head y.toNat
    have hdash := digitChar_ne_dash d hd
    have hplus := digitChar_ne_plus d hd
    simp only [intToChars, if_neg hy, ht, parseI32, if_neg hdash, if_neg hplus]
    rw [← ht, parseDigits_natToChars]
    have hb : y.toNat < 2 ^ 31 := by rw [h31n]; omega
    simp only [if_pos hb, Option.some.injEq]
    exact Int.toNat_of_nonneg (by omega)

/-! ## Claim theorems for the timetable identity and its address -/

/-- C2 counterexample: the TryFrom conversion always rebuilds the
identity with the fixed UC3M zone, so an identity constructed with any
other zone is not recovered by the round trip even though the numeric
fields all are. -/
theorem c2_round_trip_counterexample :
    TimetableId.try_from (TimetableId.url ⟨2022, 433, 2, 4, 121, 1, Tz.utc⟩)
      ≠ Except.ok ⟨2022, 433, 2, 4, 121, 1, Tz.utc⟩ := by decide

/-- C2 (amended): for every TimetableId with in-range numeric fields
whose time zone is the UC3M zone, parsing the derived address yields the
identity back. -/
theorem c2_url_round_trip (id : TimetableId)
    (hp : id.plan < 2 ^ 16) (hc : id.center < 2 ^ 8) (hg : id.grade < 2 ^ 8)
    (hgr : id.group < 2 ^ 16) (hpe : id.period < 2 ^ 8)
    (hy1 : -(2 ^ 31) ≤ id.year) (hy2 : id.year < 2 ^ 31)
    (htz : id.time_zone = Tz.madrid) :
    TimetableId.try_from id.url = Except.ok id := by
  have hd : (TimetableId.url id).domain = some uc3mDomain := rfl
  have hps : (TimetableId.url id).pathSegments = some
      [ "horarios-web".data, "publicacion".data, intToChars id.year
      , "porCentroPlanCursoGrupo.tt".data ] := rfl
  have l1 : lookupLast "plan".data (TimetableId.url id).queryPairs
      = some (natToChars id.plan) := rfl
  have l2 : lookupLast "centro".data (TimetableId.url id).queryPairs
      = some (natToChars id.center) := rfl
  have l3 : lookupLast "curso".data (TimetableId.url id).queryPairs
      = some (natToChars id.grade) := rfl
  have l4 : lookupLast "grupo".data (TimetableId.url id).queryPairs
      = some (natToChars id.group) := rfl
  have l5 : lookupLast "valorPer".data (TimetableId.url id).queryPairs
      = some (natToChars id.period) := rfl
  simp only [TimetableId.try_from, hd, hps, parseQueryParam, l1, l2, l3, l4, l5,
    List.drop_succ_cons, List.drop_zero, ne_eq, not_true_eq_false, if_false,
    parseI32_intToChars id.year hy1 hy2,
    parseUInt_natToChars 16 id.plan hp, parseUInt_natToChars 8 id.center hc,
    parseUInt_natToChars 8 id.grade hg, parseUInt_natToChars 16 id.group hgr,
    parseUInt_natToChars 8 id.period hpe]
  rcases id with ⟨y, p, c, g, gr, pe, tz⟩
  simp only at htz
  subst htz
  rfl

/-- Witness for the amended C2 at the concrete identity of the crate
test suite. -/
theorem c2_url_round_trip_witness :
    TimetableId.try_from (TimetableId.url ⟨2022, 433, 2, 4, 121, 1, Tz.madrid⟩)
      = Except.ok ⟨2022, 433, 2, 4, 121, 1, Tz.madrid⟩ :=
  c2_url_round_trip ⟨2022, 433, 2, 4, 121, 1, Tz.madrid⟩ (by norm_num) (by norm_num)
    (by norm_num) (by norm_num) (by norm_num) (by norm_num) (by norm_num) rfl

/-- C10: parsing a timetable address never inspects the tipoPer query
parameter: whenever the domain is correct, the third path segment parses
as a year and the five numeric parameters are present and in range, the
conversion succeeds, with no condition at all on tipoPer. -/
theorem c10_tipoper_ignored (u : Url) (segs : List (List Char))
    (yearSeg : List Char) (restSegs : List (List Char)) (year : Int)
    (ps cs gs grs vs : List Char) (plan center grade group period : Nat)
    (hdom : u.domain = some uc3mDomain)
    (hsegs : u.pathSegments = some segs)
    (hdrop : segs.drop 2 = yearSeg :: restSegs)
    (hyear : parseI32 yearSeg = some year)
    (hp1 : lookupLast "plan".data u.queryPairs = some ps)
    (hp2 : parseUInt 16 ps = some plan)
    (hc1 : lookupLast "centro".data u.queryPairs = some cs)
    (hc2 : parseUInt 8 cs = some center)
    (hg1 : lookupLast "curso".data u.queryPairs = some gs)
    (hg2 : parseUInt 8 gs = some grade)
    (hgr1 : lookupLast "grupo".data u.queryPairs = some grs)
    (hgr2 : parseUInt 16 grs = some group)
    (hv1 : lookupLast "valorPer".data u.queryPairs = some vs)
    (hv2 : parseUInt 8 vs = some period) :
    TimetableId.try_from u
      = Except.ok ⟨year, plan, center, grade, group, period, Tz.madrid⟩ := by
  simp only [TimetableId.try_from, hdom, hsegs, hdrop, hyear, parseQueryParam,
    hp1, hp2, hc1, hc2, hg1, hg2, hgr1, hgr2, hv1, hv2,
    ne_eq, not_true_eq_false, if_false]

/-- Witness for C10 at a concrete address carrying a nonsense tipoPer
value. -/
theorem c10_tipoper_ignored_witness :
    TimetableId.try_from
      { domain := some uc3mDomain
      , pathSegments := some
          [ "horarios-web".data, "publicacion".data, "2022".data, "x.tt".data ]
      , queryPairs :=
          [ ("plan".data, "433".data), ("centro".data, "2".data)
          , ("curso".data, "4".data), ("grupo".data, "121".data)
          , ("tipoPer".data, "garbage".data), ("valorPer".data, "1".data) ] }
      = Except.ok ⟨2022, 433, 2, 4, 121, 1, Tz.madrid⟩ :=
  c10_tipoper_ignored _ _ _ _ _ _ _ _ _ _ _ _ _ _ _ rfl rfl rfl (by decide)
    rfl (by decide) rfl (by decide) rfl (by decide) rfl (by decide) rfl (by decide)

/-! ## Session triple lemmas and claim theorems for the extractor -/

theorem triples_append_aux {α : Type} : ∀ (k : Nat) (ns : List α), ns.length ≤ k →
    ∀ (extra : List α), ns.length % 3 = 0 → extra.length ≤ 2 →
    triples (ns ++ extra) = triples ns := by
  intro k
  induction k with
  | zero =>
    intro ns hk extra h3 he
    rcases ns with _ | ⟨a, tl⟩
    · simp only [List.nil_append]
      rcases extra with _ | ⟨x, _ | ⟨y, _ | ⟨z, tl2⟩⟩⟩
      · rfl
      · rfl
      · rfl
      · exfalso; simp at he
    · exfalso; simp at hk
  | succ k ih =>
    intro ns hk extra h3 he
    rcases ns with _ | ⟨a, _ | ⟨b, _ | ⟨c, rest⟩⟩⟩
    · simp only [List.nil_append]
      rcases extra with _ | ⟨x, _ | ⟨y, _ | ⟨z, tl2⟩⟩⟩
      · rfl
      · rfl
      · rfl
      · exfalso; simp at he
    · exfalso; simp at h3
    · exfalso; simp at h3
    · simp only [List.cons_append, triples]
      congr 1
      refine ih rest ?_ extra ?_ he
      · simp at hk; omega
      · simp at h3; omega

/-- C7 (amended): the session node list is consumed three nodes at a
time, and a trailing remainder of one or two nodes is silently dropped:
appending up to two extra nodes to a list whose length is a multiple of
three leaves push_sessions unchanged, with no malformed-document error
reported for the irregular count. -/
theorem c7_session_triples (c : Cell) (g : List Node) (ns extra : List Node)
    (h3 : ns.length % 3 = 0) (he : extra.length ≤ 2) :
    Cell.push_sessions c g (some (ns ++ extra)) = Cell.push_sessions c g (some ns) := by
  rcases g with _ | ⟨n, grest⟩
  · rfl
  · cases n with
    | element ch => rfl
    | text course =>
      simp only [Cell.push_sessions, Node.as_text]
      rw [triples_append_aux ns.length ns le_rfl extra h3 he]

/-- C7 counterexample: a session list of one node has a count that is
not a multiple of three, yet push_sessions reports no error at all: the
lone node is dropped and the shared result stays ok. -/
theorem c7_session_triples_counterexample :
    ([Node.text "x".data] : List Node).length % 3 ≠ 0
    ∧ Cell.push_sessions ⟨2022, Tz.madrid, ⟨0, Tz.madrid⟩, 39600, 900⟩
        [Node.text "Course".data] (some [Node.text "x".data])
        = some ([], Except.ok ()) := by
  constructor
  · decide
  · rfl

/-- Witness for the amended C7 at a concrete cell and group. -/
theorem c7_session_triples_witness :
    Cell.push_sessions ⟨2022, Tz.madrid, ⟨0, Tz.madrid⟩, 43200, 1800⟩
        [Node.text "Prog".data] (some ([] ++ [Node.text "y".data]))
      = Cell.push_sessions ⟨2022, Tz.madrid, ⟨0, Tz.madrid⟩, 43200, 1800⟩
        [Node.text "Prog".data] (some []) :=
  c7_session_triples ⟨2022, Tz.madrid, ⟨0, Tz.madrid⟩, 43200, 1800⟩
    [Node.text "Prog".data] [] [Node.text "y".data] (by decide) (by decide)

/-- C5: when the date-range text of a session cell splits on a dash into
two texts that parse to distinct dates, parse_session builds an Event
whose recurrence is a weekly rule bounded by the end date combined with
the row start time; that rule renders as FREQ=WEEKLY;UNTIL= followed by
the bound converted to UTC and formatted YYYYMMDDTHHMMSS, and reaches
the component as the RRULE property; when the two dates are equal the
Event carries no recurrence. -/
theorem c5_weekly_recurrence (c : Cell) (dspan lspan dn ln : Node)
    (course_name rawText loc sText eText : List Char) (sd ed : Date) (sdt : DateTime)
    (hd : dspan.first_child = some dn)
    (hdt : dn.as_text = some rawText)
    (hsplit : splitOnce '-' (trimEndColons rawText) = some (sText, eText))
    (hsd : c.parse_date sText = Except.ok sd)
    (hed : c.parse_date eText = Except.ok ed)
    (hl : lspan.first_child = some ln)
    (hlt : ln.as_text = some loc)
    (hsdt : sd.and_time c.start_time = some sdt)
    (hdur : 0 < c.duration) :
    (∀ edt, sd ≠ ed → ed.and_time c.start_time = some edt →
      c.parse_session dspan lspan course_name
        = some (Except.ok
            { sessionEvent c (trimEndColons rawText) course_name loc sdt with
              recurrence := some (Recurrence.mkUntil TimeUnit.Week edt) })
      ∧ (Recurrence.mkUntil TimeUnit.Week edt).display
          = "FREQ=WEEKLY;UNTIL=".data ++ format_date_time (edt.with_timezone Tz.utc)
      ∧ (Component.ofEvent
            { sessionEvent c (trimEndColons rawText) course_name loc sdt with
              recurrence := some (Recurrence.mkUntil TimeUnit.Week edt) }).first_prop
            "RRULE".data
          = some (Prop'.new "RRULE".data (Recurrence.mkUntil TimeUnit.Week edt).display))
    ∧ (sd = ed →
      c.parse_session dspan lspan course_name
        = some (Except.ok (sessionEvent c (trimEndColons rawText) course_name loc sdt))) := by
  have hchain :
      (((Event.new (course_name ++ ('-' :: trimEndColons rawText) ++ ('@' :: productName))
          c.created_on sdt).setSummary course_name).setLocation loc).setDuration c.duration
        = some (sessionEvent c (trimEndColons rawText) course_name loc sdt) := by
    have hpos : ¬ (c.duration ≤ 0) := by omega
    simp [Event.new, Event.setSummary, Event.setLocation, Event.setDuration, sessionEvent, hpos]
  constructor
  · intro edt hne hedt
    refine ⟨?_, ?_, ?_⟩
    · simp only [Cell.parse_session, hd, hdt, Cell.parse_date_range, hsplit, hsd, hed,
        hl, hlt, hsdt, hchain, if_neg hne, hedt, Event.setRecurrence]
    · simp only [Recurrence.display, Recurrence.mkUntil, TimeUnit.recurrence_freq,
        List.append_nil, List.append_assoc]
      rfl
    · rfl
  · intro heq
    simp only [Cell.parse_session, hd, hdt, Cell.parse_date_range, hsplit, hsd, hed,
      hl, hlt, hsdt, hchain, if_pos heq]

/-- Witness for C5 at a concrete cell: an 11:00 row, a 15-minute cell
and the range 12.sep-12.dic of 2022, whose end instant falls in winter
time while the start falls in summer time. -/
theorem c5_weekly_recurrence_witness :
    Cell.parse_session ⟨2022, Tz.madrid, ⟨1660000000, Tz.madrid⟩, 39600, 900⟩
        (Node.element [Node.text "12.sep-12.dic:".data])
        (Node.element [Node.text "4.0.E01".data]) "Programming".data
      = some (Except.ok
          { sessionEvent ⟨2022, Tz.madrid, ⟨1660000000, Tz.madrid⟩, 39600, 900⟩
              "12.sep-12.dic".data "Programming".data "4.0.E01".data
              ⟨daysFromCivil 2022 9 12 * 86400 + 39600 - 7200, Tz.madrid⟩ with
            recurrence := some (Recurrence.mkUntil TimeUnit.Week
              ⟨daysFromCivil 2022 12 12 * 86400 + 39600 - 3600, Tz.madrid⟩) }) :=
  ((c5_weekly_recurrence
      ⟨2022, Tz.madrid, ⟨1660000000, Tz.madrid⟩, 39600, 900⟩
      (Node.element [Node.text "12.sep-12.dic:".data])
      (Node.element [Node.text "4.0.E01".data])
      (Node.text "12.sep-12.dic:".data) (Node.text "4.0.E01".data)
      ("Programming".data) ("12.sep-12.dic:".data) ("4.0.E01".data)
      ("12.sep".data) ("12.dic".data)
      ⟨daysFromCivil 2022 9 12, Tz.madrid⟩ ⟨daysFromCivil 2022 12 12, Tz.madrid⟩
      ⟨daysFromCivil 2022 9 12 * 86400 + 39600 - 7200, Tz.madrid⟩
      rfl rfl (by decide) (by decide) (by decide) rfl rfl (by decide) (by decide)).1
    ⟨daysFromCivil 2022 12 12 * 86400 + 39600 - 3600, Tz.madrid⟩
    (by decide) (by decide)).1

/-! ## Line folding lemmas -/

theorem utf8Size_le_four (c : Char) : c.utf8Size ≤ 4 := by
  simp only [Char.utf8Size]
  split
  · omega
  · split
    · omega
    · split <;> omega

theorem utf8Size_pos (c : Char) : 1 ≤ c.utf8Size := by
  simp only [Char.utf8Size]
  split
  · omega
  · split
    · omega
    · split <;> omega

theorem writeFolded_fst_cons (c : Char) (cs : List Char) (n : Nat) :
    (writeFolded (c :: cs) n).1 =
      if 75 < n + c.utf8Size then
        '\r' :: '\n' :: ' ' :: c :: (writeFolded cs (1 + c.utf8Size)).1
      else c :: (writeFolded cs (n + c.utf8Size)).1 := by
  simp only [writeFolded]
  split <;> rfl

theorem writeFolded_snd_cons (c : Char) (cs : List Char) (n : Nat) :
    (writeFolded (c :: cs) n).2 =
      if 75 < n + c.utf8Size then (writeFolded cs (1 + c.utf8Size)).2
      else (writeFolded cs (n + c.utf8Size)).2 := by
  simp only [writeFolded]
  split <;> rfl

theorem writeFolded_append (a b : List Char) : ∀ n,
    writeFolded (a ++ b) n
      = ((writeFolded a n).1 ++ (writeFolded b (writeFolded a n).2).1,
         (writeFolded b (writeFolded a n).2).2) := by
  induction a with
  | nil => intro n; simp [writeFolded]
  | cons c cs ih =>
    intro n
    simp only [List.cons_append, writeFolded]
    split <;> simp [ih]

theorem writeParams_eq (ps : List Param) : ∀ n,
    writeParams ps n = writeFolded ((ps.map paramText).flatten) n := by
  induction ps with
  | nil => intro n; simp [writeParams, writeFolded]
  | cons p ps ih =>
    intro n
    simp only [writeParams, List.map_cons, List.flatten_cons, writeFolded_append, ih]

theorem display_eq_writeFolded_line (p : Prop') :
    p.display = (writeFolded p.line 0).1 := by
  simp only [Prop'.display, Prop'.line, writeParams_eq, writeFolded_append, List.append_assoc]

theorem strip_nil : strip [] = [] := by simp [strip]

theorem strip_one (c : Char) : strip [c] = [c] := by simp [strip]

theorem strip_two (c d : Char) : strip [c, d] = [c, d] := by simp [strip]

theorem strip_rnsp (r : List Char) : strip ('\r' :: '\n' :: ' ' :: r) = strip r := by
  simp [strip]

theorem strip_cons_three (c1 c2 c3 : Char) (r : List Char)
    (h : ¬(c1 = '\r' ∧ c2 = '\n' ∧ c3 = ' ')) :
    strip (c1 :: c2 :: c3 :: r) = c1 :: strip (c2 :: c3 :: r) := by
  rw [strip]
  simp [h]

theorem contains_tail (c : Char) (cs : List Char)
    (h : containsCRLFSp (c :: cs) = false) : containsCRLFSp cs = false := by
  match cs with
  | [] => rfl
  | [a] => rfl
  | a :: b :: rest =>
    rw [containsCRLFSp] at h
    split at h
    · exact absurd h (by simp)
    · exact h

theorem strip_cons_writeFolded : ∀ (cs : List Char) (c : Char) (m : Nat),
    containsCRLFSp (c :: cs) = false →
    strip (c :: (writeFolded cs m).1) = c :: cs := by
  intro cs
  induction cs with
  | nil => intro c m _; exact strip_one c
  | cons d cs' ih =>
    intro c m h
    rw [writeFolded_fst_cons]
    by_cases hf : 75 < m + d.utf8Size
    · rw [if_pos hf]
      rw [strip_cons_three c '\r' '\n' _ (by simp)]
      rw [strip_rnsp]
      rw [ih d (1 + d.utf8Size) (contains_tail c _ h)]
    · rw [if_neg hf]
      cases cs' with
      | nil => exact strip_two c d
      | cons e cs'' =>
        have hnext := writeFolded_fst_cons e cs'' (m + d.utf8Size)
        by_cases hf2 : 75 < m + d.utf8Size + e.utf8Size
        · rw [if_pos hf2] at hnext
          rw [hnext, strip_cons_three c d '\r' _ (by simp), ← hnext]
          rw [ih d (m + d.utf8Size) (contains_tail c _ h)]
        · rw [if_neg hf2] at hnext
          have hne : ¬(c = '\r' ∧ d = '\n' ∧ e = ' ') := by
            rintro ⟨h1, h2, h3⟩
            subst h1; subst h2; subst h3
            rw [containsCRLFSp] at h
            simp at h
          rw [hnext, strip_cons_three c d e _ hne, ← hnext]
          rw [ih d (m + d.utf8Size) (contains_tail c _ h)]

theorem strip_writeFolded (cs : List Char) (n : Nat)
    (h : containsCRLFSp cs = false) : strip (writeFolded cs n).1 = cs := by
  cases cs with
  | nil => exact strip_nil
  | cons c cs' =>
    rw [writeFolded_fst_cons]
    by_cases hf : 75 < n + c.utf8Size
    · rw [if_pos hf, strip_rnsp]
      exact strip_cons_writeFolded cs' c (1 + c.utf8Size) h
    · rw [if_neg hf]
      exact strip_cons_writeFolded cs' c (n + c.utf8Size) h

theorem lineLens_one (c : Char) (cur : Nat) : lineLens [c] cur = [cur + c.utf8Size] := rfl

theorem lineLens_cons_two (c1 c2 : Char) (rest : List Char) (cur : Nat) :
    lineLens (c1 :: c2 :: rest) cur =
      if c1 = '\r' ∧ c2 = '\n' then cur :: lineLens rest 0
      else lineLens (c2 :: rest) (cur + c1.utf8Size) := rfl

theorem lineLens_writeFolded_bound : ∀ (k : Nat) (cs : List Char), cs.length ≤ k →
    ∀ (c : Char) (m cur : Nat), cur + c.utf8Size ≤ m → m ≤ 75 →
    ∀ l ∈ lineLens (c :: (writeFolded cs m).1) cur, l ≤ 75 := by
  intro k
  induction k with
  | zero =>
    intro cs hk c m cur h1 h2 l hl
    rcases cs with _ | ⟨d, cs'⟩
    · have hz : (writeFolded ([] : List Char) m).1 = [] := rfl
      rw [hz, lineLens_one] at hl
      simp at hl
      omega
    · exfalso; simp at hk
  | succ k ih =>
    intro cs hk c m cur h1 h2 l hl
    rcases cs with _ | ⟨d, cs'⟩
    · have hz : (writeFolded ([] : List Char) m).1 = [] := rfl
      rw [hz, lineLens_one] at hl
      simp at hl
      omega
    · rw [writeFolded_fst_cons] at hl
      have hszd := utf8Size_le_four d
      have hsp : (' ' : Char).utf8Size = 1 := by decide
      by_cases hf : 75 < m + d.utf8Size
      · rw [if_pos hf] at hl
        rw [lineLens_cons_two, if_neg (fun hx => absurd hx.2 (by decide))] at hl
        rw [lineLens_cons_two, if_pos ⟨rfl, rfl⟩] at hl
        rcases List.mem_cons.mp hl with hcur | hl2
        · omega
        · rw [lineLens_cons_two, if_neg (fun hx => absurd hx.1 (by decide))] at hl2
          rw [hsp] at hl2
          exact ih cs' (by simp at hk; omega) d (1 + d.utf8Size) (0 + 1)
            (by omega) (by omega) l hl2
      · rw [if_neg hf] at hl
        cases cs' with
        | nil =>
          have hz : (writeFolded ([] : List Char) (m + d.utf8Size)).1 = [] := rfl
          rw [hz] at hl
          by_cases hcd : c = '\r' ∧ d = '\n'
          · rw [lineLens_cons_two, if_pos hcd] at hl
            simp [lineLens] at hl
            rcases hl with h0 | h0 <;> omega
          · rw [lineLens_cons_two, if_neg hcd, lineLens_one] at hl
            simp at hl
            omega
        | cons e cs'' =>
          have hsze := utf8Size_le_four e
          have hnext := writeFolded_fst_cons e cs'' (m + d.utf8Size)
          by_cases hcd : c = '\r' ∧ d = '\n'
          · rw [lineLens_cons_two, if_pos hcd] at hl
            rcases List.mem_cons.mp hl with hcur | hl2
            · omega
            · by_cases hf2 : 75 < m + d.utf8Size + e.utf8Size
              · rw [if_pos hf2] at hnext
                rw [hnext] at hl2
                rw [lineLens_cons_two, if_pos ⟨rfl, rfl⟩] at hl2
                rcases List.mem_cons.mp hl2 with h0 | hl3
                · omega
                · rw [lineLens_cons_two, if_neg (fun hx => absurd hx.1 (by decide))] at hl3
                  rw [hsp] at hl3
                  exact ih cs'' (by simp at hk; omega) e (1 + e.utf8Size) (0 + 1)
                    (by omega) (by omega) l hl3
              · rw [if_neg hf2] at hnext
                rw [hnext] at hl2
                exact ih cs'' (by simp at hk; omega) e (m + d.utf8Size + e.utf8Size) 0
                  (by omega) (by omega) l hl2
          · rw [lineLens_cons_two, if_neg hcd] at hl
            exact ih (e :: cs'') (by simp at hk ⊢; omega) d (m + d.utf8Size)
              (cur + c.utf8Size) (by omega) (by omega) l hl

theorem lineLens_display_bound (p : Prop') : ∀ l ∈ lineLens p.display 0, l ≤ 75 := by
  rw [display_eq_writeFolded_line]
  generalize p.line = cs
  cases cs with
  | nil =>
    intro l hl
    have hz : (writeFolded ([] : List Char) 0).1 = [] := rfl
    rw [hz] at hl
    simp [lineLens] at hl
    omega
  | cons c cs' =>
    have hszc := utf8Size_le_four c
    rw [writeFolded_fst_cons, if_neg (by omega)]
    exact fun l hl =>
      lineLens_writeFolded_bound cs'.length cs' le_rfl c (0 + c.utf8Size) 0
        (by omega) (by omega) l hl

/-- C1 counterexample: a property whose value itself contains a CRLF
followed by a space breaks the unfold round trip even though no folding
happens: stripping removes the literal sequence from the value. -/
theorem c1_folding_counterexample :
    strip (Prop'.display { name := ['A'], params := [], value := ['x', '\r', '\n', ' ', 'y'] })
      ≠ Prop'.line { name := ['A'], params := [], value := ['x', '\r', '\n', ' ', 'y'] } := by
  decide

/-- C1 (amended): the rendering of every property folds the formatted
line character by character on UTF-8 octet length as described, so no
physical line of the folded output exceeds 75 octets; and for every
property whose unfolded line contains no CRLF-plus-space sequence of its
own, stripping every CRLF-plus-space sequence from the folded output
reproduces the unfolded line. -/
theorem c1_prop_line_folding (p : Prop') :
    (∀ l ∈ lineLens p.display 0, l ≤ 75)
    ∧ (containsCRLFSp p.line = false → strip p.display = p.line) := by
  refine ⟨lineLens_display_bound p, fun h => ?_⟩
  rw [display_eq_writeFolded_line]
  exact strip_writeFolded _ 0 h

/-- Witness for the amended C1 at a concrete long property that folds
onto several physical lines. -/
theorem c1_prop_line_folding_witness :
    strip (Prop'.display (Prop'.new "DESCRIPTION".data
        "This is a long description that exists on multiple long lines since this is a very long string that exceeds the maximum number of bytes allowed.".data))
      = Prop'.line (Prop'.new "DESCRIPTION".data
        "This is a long description that exists on multiple long lines since this is a very long string that exceeds the maximum number of bytes allowed.".data) :=
  (c1_prop_line_folding _).2 (by decide)
